import Mathlib

/-!
Verification of the Bueno-Orovio-Cherry-Fenton (BOCF) minimal ventricular
model repository (files `bueno_orovio/ops.py` and
`implementation/bueno_orovio_0d.py`).

The Python code works on IEEE doubles; the embedding idealises every scalar
as an exact rational (`ℚ`).  The source injects the hyperbolic tangent as a
function parameter (`tanh=math.tanh` in `calc_s`, `calc_tau_w_m`,
`calc_tau_so`), so the embedding threads an explicit `th : ℚ → ℚ` through
every function that the source parameterises by `tanh`; claims that depend
on properties of the real `tanh` hypothesise only facts that `math.tanh`
satisfies (its values lie strictly between `-1` and `1`).
-/

/-- State variables of the model, the four scalars of `ops.get_variables`. -/
structure Vars where
  u : ℚ
  v : ℚ
  w : ℚ
  s : ℚ
  deriving DecidableEq

/-- Parameter set of the model, the 28 scalars of `ops.get_parameters`. -/
structure Params where
  u_o : ℚ
  u_u : ℚ
  theta_v : ℚ
  theta_w : ℚ
  theta_v_m : ℚ
  theta_o : ℚ
  tau_v1_m : ℚ
  tau_v2_m : ℚ
  tau_v_p : ℚ
  tau_w1_m : ℚ
  tau_w2_m : ℚ
  k_w_m : ℚ
  u_w_m : ℚ
  tau_w_p : ℚ
  tau_fi : ℚ
  tau_o1 : ℚ
  tau_o2 : ℚ
  tau_so1 : ℚ
  tau_so2 : ℚ
  k_so : ℚ
  u_so : ℚ
  tau_s1 : ℚ
  tau_s2 : ℚ
  k_s : ℚ
  u_s : ℚ
  tau_si : ℚ
  tau_w_inf : ℚ
  w_inf_ : ℚ

/-- Default initial values of the state variables (`ops.get_variables`). -/
def get_variables : Vars :=
  { u := 0.0, v := 1.0, w := 1.0, s := 0.0 }

/-- Default EPI parameter values (`ops.get_parameters`). -/
def get_parameters : Params :=
  { u_o := 0.0
    u_u := 1.55
    theta_v := 0.3
    theta_w := 0.13
    theta_v_m := 0.006
    theta_o := 0.006
    tau_v1_m := 60.0
    tau_v2_m := 1150.0
    tau_v_p := 1.4506
    tau_w1_m := 60.0
    tau_w2_m := 15.0
    k_w_m := 65.0
    u_w_m := 0.03
    tau_w_p := 200.0
    tau_fi := 0.11
    tau_o1 := 400.0
    tau_o2 := 6.0
    tau_so1 := 30.0181
    tau_so2 := 0.9957
    k_so := 2.0458
    u_so := 0.65
    tau_s1 := 2.7342
    tau_s2 := 16.0
    k_s := 2.0994
    u_s := 0.9087
    tau_si := 1.8875
    tau_w_inf := 0.07
    w_inf_ := 0.94 }

/-- Right-hand side of the `u` equation (`ops.calc_rhs`). -/
def calc_rhs (J_fi J_so J_si : ℚ) : ℚ :=
  -J_fi - J_so - J_si

/-- Derivative of the fast gate `v` (`ops.calc_v`). -/
def calc_v (v u theta_v v_inf tau_v_m tau_v_p : ℚ) : ℚ :=
  if u - theta_v < 0 then (v_inf - v) / tau_v_m else -v / tau_v_p

/-- Derivative of the slow gate `w` (`ops.calc_w`). -/
def calc_w (w u theta_w w_inf tau_w_m tau_w_p : ℚ) : ℚ :=
  if u - theta_w < 0 then (w_inf - w) / tau_w_m else -w / tau_w_p

/-- Derivative of the slow variable `s` (`ops.calc_s`); `th` is the injected
`tanh` parameter of the source. -/
def calc_s (th : ℚ → ℚ) (s u tau_s k_s u_s : ℚ) : ℚ :=
  ((1 + th (k_s * (u - u_s))) / 2 - s) / tau_s

/-- Heaviside gate of `ops.calc_Jfi`: `H = 1.0 if (u - theta_v) >= 0 else 0.0`. -/
def Jfi_H (u theta_v : ℚ) : ℚ :=
  if u - theta_v ≥ 0 then 1.0 else 0.0

/-- Fast inward current (`ops.calc_Jfi`). -/
def calc_Jfi (u v theta_v u_u tau_fi : ℚ) : ℚ :=
  -v * Jfi_H u theta_v * (u - theta_v) * (u_u - u) / tau_fi

/-- Heaviside gate of `ops.calc_Jso`: `H = 1.0 if (u - theta_w) >= 0 else 0.0`. -/
def Jso_H (u theta_w : ℚ) : ℚ :=
  if u - theta_w ≥ 0 then 1.0 else 0.0

/-- Slow outward current (`ops.calc_Jso`). -/
def calc_Jso (u u_o theta_w tau_o tau_so : ℚ) : ℚ :=
  (u - u_o) * (1 - Jso_H u theta_w) / tau_o + Jso_H u theta_w / tau_so

/-- Heaviside gate of `ops.calc_Jsi`: `H = 1.0 if (u - theta_w) >= 0 else 0.0`. -/
def Jsi_H (u theta_w : ℚ) : ℚ :=
  if u - theta_w ≥ 0 then 1.0 else 0.0

/-- Slow inward current (`ops.calc_Jsi`). -/
def calc_Jsi (u w s theta_w tau_si : ℚ) : ℚ :=
  -Jsi_H u theta_w * w * s / tau_si

/-- Hard-switched time constant for `v` (`ops.calc_tau_v_m`). -/
def calc_tau_v_m (u theta_v_m tau_v1_m tau_v2_m : ℚ) : ℚ :=
  if u - theta_v_m < 0 then tau_v1_m else tau_v2_m

/-- Smoothly blended time constant for `w` (`ops.calc_tau_w_m`). -/
def calc_tau_w_m (th : ℚ → ℚ) (u tau_w1_m tau_w2_m k_w_m u_w_m : ℚ) : ℚ :=
  tau_w1_m + (tau_w2_m - tau_w1_m) * (1 + th (k_w_m * (u - u_w_m))) / 2

/-- Smoothly blended time constant `tau_so` (`ops.calc_tau_so`). -/
def calc_tau_so (th : ℚ → ℚ) (u tau_so1 tau_so2 k_so u_so : ℚ) : ℚ :=
  tau_so1 + (tau_so2 - tau_so1) * (1 + th (k_so * (u - u_so))) / 2

/-- Hard-switched time constant `tau_s` (`ops.calc_tau_s`). -/
def calc_tau_s (u tau_s1 tau_s2 theta_w : ℚ) : ℚ :=
  if u - theta_w < 0 then tau_s1 else tau_s2

/-- Hard-switched time constant `tau_o` (`ops.calc_tau_o`). -/
def calc_tau_o (u tau_o1 tau_o2 theta_o : ℚ) : ℚ :=
  if u - theta_o < 0 then tau_o1 else tau_o2

/-- Steady state of `v` (`ops.calc_v_inf`). -/
def calc_v_inf (u theta_v_m : ℚ) : ℚ :=
  if u < theta_v_m then 1.0 else 0.0

/-- Steady state of `w` (`ops.calc_w_inf`). -/
def calc_w_inf (u theta_o tau_w_inf w_inf_ : ℚ) : ℚ :=
  if u - theta_o < 0 then 1 - u / tau_w_inf else w_inf_

/-- Stimulation protocol entry (`bueno_orovio_0d.Stimulation`). -/
structure Stimulation where
  t_start : ℚ
  duration : ℚ
  amplitude : ℚ
  deriving DecidableEq

/-- Instantaneous stimulus value (`Stimulation.stim`):
`amplitude if t_start <= t < t_start + duration else 0.0`. -/
def Stimulation.stim (st : Stimulation) (t : ℚ) : ℚ :=
  if st.t_start ≤ t ∧ t < st.t_start + st.duration then st.amplitude else 0.0

/-- Total stimulus, the `sum(stim.stim(t=...) for stim in self.stimulations)`
expression of `BuenoOrovio0D.step`. -/
def stimTotal (stims : List Stimulation) (t : ℚ) : ℚ :=
  (stims.map (fun st => st.stim t)).sum

/-- Time history of the state variables (`BuenoOrovio0D.history`). -/
structure History where
  u : List ℚ
  v : List ℚ
  w : List ℚ
  s : List ℚ

/-- The 0D model object (`bueno_orovio_0d.BuenoOrovio0D`), in the field
order of `__init__`; the attribute named `variables` in the source is the
field `vars` here (`variables` is a reserved token in Lean 4). -/
structure BuenoOrovio0D where
  dt : ℚ
  stimulations : List Stimulation
  vars : Vars
  parameters : Params
  history : History

namespace BuenoOrovio0D

/-- Constructor `BuenoOrovio0D.__init__(dt, stimulations)`: default
variables and parameters, empty history lists. -/
def init (dt : ℚ) (stimulations : List Stimulation) : BuenoOrovio0D :=
  { dt := dt
    stimulations := stimulations
    vars := get_variables
    parameters := get_parameters
    history := { u := [], v := [], w := [], s := [] } }

/-- State-variable part of `BuenoOrovio0D.step(i)`, translated statement by
statement: `v`, `w`, `s` are updated in place first, and the `u` update then
reads the already-updated `v`, `w`, `s` when forming `J_fi` and `J_si`. -/
def stepVars (th : ℚ → ℚ) (dt : ℚ) (stims : List Stimulation) (p : Params)
    (vs : Vars) (i : ℕ) : Vars :=
  let v_inf := calc_v_inf vs.u p.theta_v_m
  let tau_v_m := calc_tau_v_m vs.u p.theta_v_m p.tau_v1_m p.tau_v2_m
  let v1 := vs.v + dt * calc_v vs.v vs.u p.theta_v v_inf tau_v_m p.tau_v_p
  let w_inf := calc_w_inf vs.u p.theta_o p.tau_w_inf p.w_inf_
  let tau_w_m := calc_tau_w_m th vs.u p.tau_w1_m p.tau_w2_m p.k_w_m p.u_w_m
  let w1 := vs.w + dt * calc_w vs.w vs.u p.theta_w w_inf tau_w_m p.tau_w_p
  let tau_s := calc_tau_s vs.u p.tau_s1 p.tau_s2 p.theta_w
  let s1 := vs.s + dt * calc_s th vs.s vs.u tau_s p.k_s p.u_s
  let J_fi := calc_Jfi vs.u v1 p.theta_v p.u_u p.tau_fi
  let tau_o := calc_tau_o vs.u p.tau_o1 p.tau_o2 p.theta_o
  let tau_so := calc_tau_so th vs.u p.tau_so1 p.tau_so2 p.k_so p.u_so
  let J_so := calc_Jso vs.u p.u_o p.theta_w tau_o tau_so
  let J_si := calc_Jsi vs.u w1 s1 p.theta_w p.tau_si
  let u1 := vs.u + dt * (calc_rhs J_fi J_so J_si + stimTotal stims (dt * i))
  { u := u1, v := v1, w := w1, s := s1 }

/-- One call of `BuenoOrovio0D.step(i)`: mutates `self.variables` only. -/
def step (th : ℚ → ℚ) (m : BuenoOrovio0D) (i : ℕ) : BuenoOrovio0D :=
  { m with vars := stepVars th m.dt m.stimulations m.parameters m.vars i }

/-- The per-step history append of `BuenoOrovio0D.run`:
`for s in self.variables: self.history[s].append(self.variables[s])`. -/
def snapAppend (m : BuenoOrovio0D) : BuenoOrovio0D :=
  { m with history :=
      { u := m.history.u ++ [m.vars.u]
        v := m.history.v ++ [m.vars.v]
        w := m.history.w ++ [m.vars.w]
        s := m.history.s ++ [m.vars.s] } }

/-- The loop body of `BuenoOrovio0D.run` over an explicit list of step
indices: `self.step(i)` followed by the history append. -/
def runSteps (th : ℚ → ℚ) : BuenoOrovio0D → List ℕ → BuenoOrovio0D
  | m, [] => m
  | m, i :: is => runSteps th (snapAppend (step th m i)) is

/-- Python's `round` (round half to even) on an exact rational, as used in
`n_steps = int(round(t_max/self.dt))`. -/
def pyRound (q : ℚ) : ℤ :=
  if q - ⌊q⌋ < 1 / 2 then ⌊q⌋
  else if 1 / 2 < q - ⌊q⌋ then ⌊q⌋ + 1
  else if ⌊q⌋ % 2 = 0 then ⌊q⌋ else ⌊q⌋ + 1

/-- `BuenoOrovio0D.run(t_max)`: `n_steps = int(round(t_max/self.dt))`, then
the step/append loop over `range(n_steps)` (empty when `n_steps <= 0`). -/
def run (th : ℚ → ℚ) (m : BuenoOrovio0D) (t_max : ℚ) : BuenoOrovio0D :=
  runSteps th m (List.range (pyRound (t_max / m.dt)).toNat)

end BuenoOrovio0D

/-- State after executing `step` for each index of `is` in order (history
ignored, which `step` never reads nor writes). -/
def varsAfter (th : ℚ → ℚ) (dt : ℚ) (stims : List Stimulation) (p : Params)
    (vs : Vars) (is : List ℕ) : Vars :=
  is.foldl (BuenoOrovio0D.stepVars th dt stims p) vs

/-- Sequence of post-step states along the execution of the indices `is`:
entry `k` is the state right after the `(k+1)`-th step. -/
def varsTrace (th : ℚ → ℚ) (dt : ℚ) (stims : List Stimulation) (p : Params) :
    Vars → List ℕ → List Vars
  | _, [] => []
  | vs, i :: is =>
    BuenoOrovio0D.stepVars th dt stims p vs i ::
      varsTrace th dt stims p (BuenoOrovio0D.stepVars th dt stims p vs i) is

/-- A sequence of `run` calls (`model.run(t1); model.run(t2); ...`). -/
def runMany (th : ℚ → ℚ) (m : BuenoOrovio0D) (ts : List ℚ) : BuenoOrovio0D :=
  ts.foldl (BuenoOrovio0D.run th) m

/-- Concatenated step-index sequence executed by a sequence of `run` calls:
each call restarts its loop at index `0`. -/
def idxSeq (dtq : ℚ) (ts : List ℚ) : List ℕ :=
  (ts.map (fun t => List.range (BuenoOrovio0D.pyRound (t / dtq)).toNat)).flatten

/-- Modelled from the spec: the textbook forward-Euler update of claim C1 and
spec section 4.3, in which all four derivatives (and the three currents) are
evaluated at the start-of-step state, `u`'s update reading the pre-update
`v`, `w`, `s`. -/
def forward_euler_step (th : ℚ → ℚ) (m : BuenoOrovio0D) (i : ℕ) : Vars :=
  let p := m.parameters
  let vs := m.vars
  let v1 := vs.v + m.dt * calc_v vs.v vs.u p.theta_v (calc_v_inf vs.u p.theta_v_m)
    (calc_tau_v_m vs.u p.theta_v_m p.tau_v1_m p.tau_v2_m) p.tau_v_p
  let w1 := vs.w + m.dt * calc_w vs.w vs.u p.theta_w
    (calc_w_inf vs.u p.theta_o p.tau_w_inf p.w_inf_)
    (calc_tau_w_m th vs.u p.tau_w1_m p.tau_w2_m p.k_w_m p.u_w_m) p.tau_w_p
  let s1 := vs.s + m.dt * calc_s th vs.s vs.u
    (calc_tau_s vs.u p.tau_s1 p.tau_s2 p.theta_w) p.k_s p.u_s
  let u1 := vs.u + m.dt *
    (calc_rhs (calc_Jfi vs.u vs.v p.theta_v p.u_u p.tau_fi)
      (calc_Jso vs.u p.u_o p.theta_w (calc_tau_o vs.u p.tau_o1 p.tau_o2 p.theta_o)
        (calc_tau_so th vs.u p.tau_so1 p.tau_so2 p.k_so p.u_so))
      (calc_Jsi vs.u vs.w vs.s p.theta_w p.tau_si) +
      stimTotal m.stimulations (m.dt * i))
  { u := u1, v := v1, w := w1, s := s1 }

/-- Division with an explicit error branch, mirroring Python's
`ZeroDivisionError`: `none` is the raise. -/
def safeDiv (a b : ℚ) : Option ℚ :=
  if b = 0 then none else some (a / b)

/-- The `ops.calc_v` expression with every division checked. -/
def calc_v_chk (v u theta_v v_inf tau_v_m tau_v_p : ℚ) : Option ℚ :=
  if u - theta_v < 0 then safeDiv (v_inf - v) tau_v_m else safeDiv (-v) tau_v_p

/-- The `ops.calc_w` expression with every division checked. -/
def calc_w_chk (w u theta_w w_inf tau_w_m tau_w_p : ℚ) : Option ℚ :=
  if u - theta_w < 0 then safeDiv (w_inf - w) tau_w_m else safeDiv (-w) tau_w_p

/-- The `ops.calc_s` expression with every division checked. -/
def calc_s_chk (th : ℚ → ℚ) (s u tau_s k_s u_s : ℚ) : Option ℚ :=
  (safeDiv (1 + th (k_s * (u - u_s))) 2).bind (fun a => safeDiv (a - s) tau_s)

/-- The `ops.calc_Jfi` expression with every division checked. -/
def calc_Jfi_chk (u v theta_v u_u tau_fi : ℚ) : Option ℚ :=
  safeDiv (-v * Jfi_H u theta_v * (u - theta_v) * (u_u - u)) tau_fi

/-- The `ops.calc_Jso` expression with every division checked; Python
evaluates both divisions whatever the value of the gate `H`. -/
def calc_Jso_chk (u u_o theta_w tau_o tau_so : ℚ) : Option ℚ :=
  (safeDiv ((u - u_o) * (1 - Jso_H u theta_w)) tau_o).bind
    (fun a => (safeDiv (Jso_H u theta_w) tau_so).map (fun b => a + b))

/-- The `ops.calc_Jsi` expression with every division checked. -/
def calc_Jsi_chk (u w s theta_w tau_si : ℚ) : Option ℚ :=
  safeDiv (-Jsi_H u theta_w * w * s) tau_si

/-- The `ops.calc_tau_w_m` expression with every division checked. -/
def calc_tau_w_m_chk (th : ℚ → ℚ) (u tau_w1_m tau_w2_m k_w_m u_w_m : ℚ) : Option ℚ :=
  (safeDiv ((tau_w2_m - tau_w1_m) * (1 + th (k_w_m * (u - u_w_m)))) 2).map
    (fun a => tau_w1_m + a)

/-- The `ops.calc_tau_so` expression with every division checked. -/
def calc_tau_so_chk (th : ℚ → ℚ) (u tau_so1 tau_so2 k_so u_so : ℚ) : Option ℚ :=
  (safeDiv ((tau_so2 - tau_so1) * (1 + th (k_so * (u - u_so)))) 2).map
    (fun a => tau_so1 + a)

/-- The `ops.calc_w_inf` expression with every division checked; the division
by `tau_w_inf` sits in the strict-below branch only. -/
def calc_w_inf_chk (u theta_o tau_w_inf w_inf_ : ℚ) : Option ℚ :=
  if u - theta_o < 0 then (safeDiv u tau_w_inf).map (fun a => 1 - a) else some w_inf_

/-- A placeholder member of the class of admissible `tanh` implementations
(used to instantiate universally quantified statements; `math.tanh` is
another member of that class). -/
def tanh0 : ℚ → ℚ := fun _ => 0

open BuenoOrovio0D

/-- C4: for every Stimulation entry and every time `t`, `stim t` returns the
amplitude exactly on the half-open window `[t_start, t_start + duration)` and
`0` otherwise; in particular for `(t_start, duration, amplitude) =
(0.1, 0.2, 5.0)` the boundary values are `stim 0.09 = 0`, `stim 0.1 = 5`,
`stim 0.29 = 5`, `stim 0.3 = 0`. -/
theorem stim_window (st : Stimulation) (t : ℚ) :
    (st.t_start ≤ t ∧ t < st.t_start + st.duration → st.stim t = st.amplitude) ∧
    (¬(st.t_start ≤ t ∧ t < st.t_start + st.duration) → st.stim t = 0) ∧
    (Stimulation.stim ⟨0.1, 0.2, 5.0⟩ 0.09 = 0 ∧
     Stimulation.stim ⟨0.1, 0.2, 5.0⟩ 0.1 = 5 ∧
     Stimulation.stim ⟨0.1, 0.2, 5.0⟩ 0.29 = 5 ∧
     Stimulation.stim ⟨0.1, 0.2, 5.0⟩ 0.3 = 0) := by
  refine ⟨fun h => by rw [Stimulation.stim, if_pos h],
    fun h => by simp only [Stimulation.stim, if_neg h]; norm_num,
    by norm_num [Stimulation.stim], by norm_num [Stimulation.stim],
    by norm_num [Stimulation.stim], by norm_num [Stimulation.stim]⟩

/-- Witness for `stim_window` at the concrete entry `(0.1, 0.2, 5.0)` and
`t = 0.15` (inside the window) resp. `t = 0.5` (outside). -/
theorem stim_window_witness :
    Stimulation.stim ⟨0.1, 0.2, 5.0⟩ 0.15 = 5.0 ∧
    Stimulation.stim ⟨0.1, 0.2, 5.0⟩ 0.5 = 0 :=
  ⟨(stim_window ⟨0.1, 0.2, 5.0⟩ 0.15).1 (by constructor <;> norm_num),
   ((stim_window ⟨0.1, 0.2, 5.0⟩ 0.5).2.1 (by norm_num))⟩

/-- C5: at the exact threshold boundary the two conventions differ, for every
parameter value: the Heaviside gate of `calc_Jfi` evaluates to `1` at
`u = theta_v` (it uses `>=`), while `calc_v_inf` selects the below-threshold
value `1.0` only under strict `u < theta_v_m`, so at `u = theta_v_m` it
returns `0.0`. -/
theorem threshold_boundary (theta_v theta_v_m : ℚ) :
    Jfi_H theta_v theta_v = 1 ∧ calc_v_inf theta_v_m theta_v_m = 0 := by
  constructor
  · norm_num [Jfi_H]
  · norm_num [calc_v_inf]

/-- C6: for every `u`, `theta_o`, `tau_w_inf ≠ 0` and `w_inf_`, `calc_w_inf`
returns `1 - u / tau_w_inf` when `u < theta_o` (strict, with `tau_w_inf`
used literally as a divisor of `u`) and `w_inf_` when `theta_o ≤ u`. -/
theorem w_inf_formula (u theta_o tau_w_inf w_inf_c : ℚ) (h : tau_w_inf ≠ 0) :
    (u < theta_o → calc_w_inf u theta_o tau_w_inf w_inf_c = 1 - u / tau_w_inf) ∧
    (theta_o ≤ u → calc_w_inf u theta_o tau_w_inf w_inf_c = w_inf_c) := by
  constructor
  · intro hu
    simp [calc_w_inf, sub_neg.mpr hu]
  · intro hu
    simp [calc_w_inf, not_lt.mpr (sub_nonneg.mpr hu)]

/-- Witness for `w_inf_formula` at `u = 0`, `theta_o = 0.006`,
`tau_w_inf = 0.07`, `w_inf_ = 0.94` (the default parameters). -/
theorem w_inf_formula_witness :
    (0.07 : ℚ) ≠ 0 ∧ calc_w_inf 0 0.006 0.07 0.94 = 1 - 0 / 0.07 :=
  ⟨by norm_num, (w_inf_formula 0 0.006 0.07 0.94 (by norm_num)).1 (by norm_num)⟩

/-- C10: a Stimulation entry with non-positive duration never fires: the
half-open window is empty, so `stim t = 0` for every `t`. -/
theorem stim_nonpos_duration (st : Stimulation) (t : ℚ) (h : st.duration ≤ 0) :
    st.stim t = 0 := by
  have hw : ¬(st.t_start ≤ t ∧ t < st.t_start + st.duration) := by
    rintro ⟨h1, h2⟩
    have : st.t_start + st.duration ≤ t := le_trans (by linarith) h1
    exact absurd h2 (not_lt.mpr this)
  simp only [Stimulation.stim, if_neg hw]
  norm_num

/-- Witness for `stim_nonpos_duration` at the entry `(1, -1, 5)` and `t = 1`. -/
theorem stim_nonpos_duration_witness :
    (-1 : ℚ) ≤ 0 ∧ Stimulation.stim ⟨1, -1, 5⟩ 1 = 0 :=
  ⟨by norm_num, stim_nonpos_duration ⟨1, -1, 5⟩ 1 (by norm_num)⟩

/-- C1 counterexample: the claim that one call of `step(i)` always produces
the textbook forward-Euler post-state (all derivatives at the start-of-step
state) is false: at `(u, v, w, s) = (0.2, 1, 1, 1)` with the default
parameters, `dt = 1` and no stimulus, the `u` update reads the already
updated `w` and `s` inside `J_si` and so differs from the textbook value
(this holds for any injected `tanh`; the instance shown uses the
admissible member `tanh0`). -/
theorem step_not_textbook_euler :
    ¬ (∀ (th : ℚ → ℚ) (m : BuenoOrovio0D) (i : ℕ),
        (step th m i).vars = forward_euler_step th m i) := by
  intro hcl
  have h := hcl tanh0
    { dt := 1, stimulations := [],
      vars := { u := 1/5, v := 1, w := 1, s := 1 },
      parameters := get_parameters, history := ⟨[], [], [], []⟩ } 0
  rw [Vars.mk.injEq] at h
  revert h
  simp only [step, stepVars, forward_euler_step, calc_v_inf, calc_tau_v_m, calc_v,
    calc_w_inf, calc_tau_w_m, calc_w, calc_tau_s, calc_s, calc_Jfi, Jfi_H,
    calc_tau_o, calc_tau_so, calc_Jso, Jso_H, calc_Jsi, Jsi_H, calc_rhs,
    stimTotal, tanh0, get_parameters, List.map_nil, List.sum_nil]
  norm_num

/-- C1 amended: the `v`, `w`, `s` components of one `step(i)` call do agree
with the textbook forward-Euler update (they are computed from start-of-step
values only), but the `u` component equals the forward-Euler `u` update
evaluated at the state whose gates have already been advanced: `step`
sequentially commits `v`, `w`, `s` and then feeds the just-updated values
into `J_fi` and `J_si` (Gauss-Seidel style), adding the stimulus at
`t = dt * i` as claimed. -/
theorem step_updates_gates_first (th : ℚ → ℚ) (m : BuenoOrovio0D) (i : ℕ) :
    (step th m i).vars.v = (forward_euler_step th m i).v ∧
    (step th m i).vars.w = (forward_euler_step th m i).w ∧
    (step th m i).vars.s = (forward_euler_step th m i).s ∧
    (step th m i).vars.u =
      (forward_euler_step th
        { m with vars := { u := m.vars.u, v := (step th m i).vars.v,
                           w := (step th m i).vars.w,
                           s := (step th m i).vars.s } } i).u :=
  ⟨rfl, rfl, rfl, rfl⟩

/-- C2 counterexample: the resting state `(0, 1, 1, 0)` is not an exact fixed
point of the unforced system: for any admissible `tanh` (values strictly
between `-1` and `1`, as `math.tanh`'s are) the `s` derivative at rest is
`((1 + tanh(k_s*(0 - u_s)))/2)/tau_s1 > 0`, so one `step` call changes `s`;
the instance shown uses `dt = 1`, where `s` moves from `0` to
`2500/13671 ≈ 0.183`, far beyond floating-point tolerance. -/
theorem resting_state_not_fixed :
    ¬ (∀ (th : ℚ → ℚ) (dtq : ℚ), (∀ x : ℚ, -1 < th x ∧ th x < 1) →
        (step th (init dtq []) 0).vars = get_variables) := by
  intro hcl
  have h := hcl tanh0 1 (fun x => by constructor <;> norm_num [tanh0])
  rw [Vars.mk.injEq] at h
  revert h
  simp only [step, stepVars, init, get_variables, calc_v_inf, calc_tau_v_m, calc_v,
    calc_w_inf, calc_tau_w_m, calc_w, calc_tau_s, calc_s, calc_Jfi, Jfi_H,
    calc_tau_o, calc_tau_so, calc_Jso, Jso_H, calc_Jsi, Jsi_H, calc_rhs,
    stimTotal, tanh0, get_parameters, List.map_nil, List.sum_nil]
  norm_num

/-- C2 amended: with the empty stimulation list, default parameters and the
default initial state, a single `step` call leaves `u`, `v` and `w` exactly
unchanged, but moves `s` by `dt * ((1 + tanh(k_s*(0 - u_s)))/2)/tau_s1`,
which is nonzero for every `dt ≠ 0` because `tanh > -1`; the resting state
is a fixed point of the unforced system only in the `u`, `v`, `w`
components. -/
theorem resting_state_uvw_fixed (th : ℚ → ℚ) (dtq : ℚ)
    (h1 : -1 < th (get_parameters.k_s * (0 - get_parameters.u_s)))
    (h2 : dtq ≠ 0) :
    (step th (init dtq []) 0).vars.u = 0 ∧
    (step th (init dtq []) 0).vars.v = 1 ∧
    (step th (init dtq []) 0).vars.w = 1 ∧
    (step th (init dtq []) 0).vars.s =
      dtq * ((1 + th (get_parameters.k_s * (0 - get_parameters.u_s))) / 2 /
        get_parameters.tau_s1) ∧
    (step th (init dtq []) 0).vars.s ≠ 0 := by
  have hs : (step th (init dtq []) 0).vars.s =
      dtq * ((1 + th (get_parameters.k_s * (0 - get_parameters.u_s))) / 2 /
        get_parameters.tau_s1) := by
    simp only [step, stepVars, init, get_variables, calc_tau_s, calc_s,
      get_parameters]
    norm_num
  refine ⟨?_, ?_, ?_, hs, ?_⟩
  · simp only [step, stepVars, init, get_variables, calc_v_inf, calc_tau_v_m, calc_v,
      calc_w_inf, calc_tau_w_m, calc_w, calc_tau_s, calc_s, calc_Jfi, Jfi_H,
      calc_tau_o, calc_tau_so, calc_Jso, Jso_H, calc_Jsi, Jsi_H, calc_rhs,
      stimTotal, get_parameters, List.map_nil, List.sum_nil]
    norm_num
  · simp only [step, stepVars, init, get_variables, calc_v_inf, calc_tau_v_m, calc_v,
      get_parameters]
    norm_num
  · simp only [step, stepVars, init, get_variables, calc_w_inf, calc_tau_w_m, calc_w,
      get_parameters]
    norm_num
  · rw [hs]
    have hpos : 0 < (1 + th (get_parameters.k_s * (0 - get_parameters.u_s))) / 2 /
        get_parameters.tau_s1 := by
      apply div_pos (div_pos (by linarith) (by norm_num))
      norm_num [get_parameters]
    exact mul_ne_zero h2 (ne_of_gt hpos)

/-- Witness for `resting_state_uvw_fixed` with `th = tanh0` and `dt = 1`. -/
theorem resting_state_uvw_fixed_witness :
    (-1 : ℚ) < tanh0 (get_parameters.k_s * (0 - get_parameters.u_s)) ∧ (1 : ℚ) ≠ 0 ∧
    (step tanh0 (init 1 []) 0).vars.s ≠ 0 :=
  ⟨by norm_num [tanh0], by norm_num,
   (resting_state_uvw_fixed tanh0 1 (by norm_num [tanh0]) (by norm_num)).2.2.2.2⟩

/-- Evaluation rule for `pyRound` below the half point. -/
theorem pyRound_low (q : ℚ) (n : ℤ) (h1 : (n : ℚ) ≤ q) (h2 : q - n < 1 / 2) :
    pyRound q = n := by
  have hf : ⌊q⌋ = n := Int.floor_eq_iff.mpr ⟨h1, by linarith⟩
  rw [pyRound, hf, if_pos h2]

/-- Evaluation rule for `pyRound` above the half point. -/
theorem pyRound_high (q : ℚ) (n : ℤ) (h1 : (n : ℚ) ≤ q) (h2 : 1 / 2 < q - n)
    (h3 : q < n + 1) : pyRound q = n + 1 := by
  have hf : ⌊q⌋ = n := Int.floor_eq_iff.mpr ⟨h1, by linarith⟩
  rw [pyRound, hf, if_neg (by linarith), if_pos h2]

/-- C8: the stimulus contribution in `step` is additive: permuting the
stimulation list never changes the post-step state, two entries whose
windows both contain `t` contribute the sum of their amplitudes (not the
maximum), and the total contribution is the sum of the per-entry values. -/
theorem stimulus_additive :
    (∀ (th : ℚ → ℚ) (m : BuenoOrovio0D) (l2 : List Stimulation) (i : ℕ),
        m.stimulations.Perm l2 →
        (step th m i).vars = (step th { m with stimulations := l2 } i).vars) ∧
    (∀ (s1 s2 : Stimulation) (t : ℚ),
        s1.t_start ≤ t ∧ t < s1.t_start + s1.duration →
        s2.t_start ≤ t ∧ t < s2.t_start + s2.duration →
        stimTotal [s1, s2] t = s1.amplitude + s2.amplitude) ∧
    (∀ (l : List Stimulation) (t : ℚ),
        stimTotal l t = (l.map (fun st => st.stim t)).sum) := by
  refine ⟨?_, ?_, fun l t => rfl⟩
  · intro th m l2 i hp
    have hst : stimTotal m.stimulations (m.dt * i) = stimTotal l2 (m.dt * i) := by
      simp only [stimTotal]
      exact (hp.map (fun st => st.stim (m.dt * i))).sum_eq
    simp only [step, stepVars]
    rw [hst]
  · intro s1 s2 t h1 h2
    simp [stimTotal, Stimulation.stim, h1, h2]

/-- Witness for `stimulus_additive`: swapping two concrete stimulations
leaves the post-step state unchanged, and two overlapping entries with
amplitudes `2` and `3` contribute `5` at `t = 1/2`. -/
theorem stimulus_additive_witness :
    (step tanh0 (init 1 [⟨0, 1, 2⟩, ⟨0, 2, 3⟩]) 0).vars =
      (step tanh0 { init 1 [⟨0, 1, 2⟩, ⟨0, 2, 3⟩] with
        stimulations := [⟨0, 2, 3⟩, ⟨0, 1, 2⟩] } 0).vars ∧
    stimTotal [⟨0, 1, 2⟩, ⟨0, 2, 3⟩] (1/2) = 2 + 3 :=
  ⟨stimulus_additive.1 tanh0 (init 1 [⟨0, 1, 2⟩, ⟨0, 2, 3⟩]) [⟨0, 2, 3⟩, ⟨0, 1, 2⟩] 0
      (show ([⟨0, 1, 2⟩, ⟨0, 2, 3⟩] : List Stimulation).Perm [⟨0, 2, 3⟩, ⟨0, 1, 2⟩] from
        List.Perm.swap _ _ _),
   stimulus_additive.2.1 ⟨0, 1, 2⟩ ⟨0, 2, 3⟩ (1/2)
      (by constructor <;> norm_num) (by constructor <;> norm_num)⟩

/-- C7: every kinetics function is total on finite inputs once the
time-constant parameters that appear as divisors are nonzero: each checked
variant (every division replaced by a `ZeroDivisionError`-aware division)
returns `some` of the unchecked value, so every division error branch is
unreachable; and every `tau_*` entry of the default parameter set is
strictly positive.  (`calc_rhs`, `calc_tau_v_m`, `calc_tau_s`, `calc_tau_o`
and `calc_v_inf` contain no division at all and are total by construction.) -/
theorem kinetics_total (th : ℚ → ℚ)
    (v u w s v_inf w_inf theta_v theta_w theta_o u_u u_o u_s u_so u_w_m k_s k_so k_w_m
     tau_v_m tau_v_p tau_w_m tau_w_p tau_s tau_fi tau_o tau_so tau_si tau_w_inf
     tau_w1_m tau_w2_m tau_so1 tau_so2 w_inf_c : ℚ)
    (h1 : tau_v_m ≠ 0) (h2 : tau_v_p ≠ 0) (h3 : tau_w_m ≠ 0) (h4 : tau_w_p ≠ 0)
    (h5 : tau_s ≠ 0) (h6 : tau_fi ≠ 0) (h7 : tau_o ≠ 0) (h8 : tau_so ≠ 0)
    (h9 : tau_si ≠ 0) (h10 : tau_w_inf ≠ 0) :
    calc_v_chk v u theta_v v_inf tau_v_m tau_v_p =
      some (calc_v v u theta_v v_inf tau_v_m tau_v_p) ∧
    calc_w_chk w u theta_w w_inf tau_w_m tau_w_p =
      some (calc_w w u theta_w w_inf tau_w_m tau_w_p) ∧
    calc_s_chk th s u tau_s k_s u_s = some (calc_s th s u tau_s k_s u_s) ∧
    calc_Jfi_chk u v theta_v u_u tau_fi = some (calc_Jfi u v theta_v u_u tau_fi) ∧
    calc_Jso_chk u u_o theta_w tau_o tau_so =
      some (calc_Jso u u_o theta_w tau_o tau_so) ∧
    calc_Jsi_chk u w s theta_w tau_si = some (calc_Jsi u w s theta_w tau_si) ∧
    calc_tau_w_m_chk th u tau_w1_m tau_w2_m k_w_m u_w_m =
      some (calc_tau_w_m th u tau_w1_m tau_w2_m k_w_m u_w_m) ∧
    calc_tau_so_chk th u tau_so1 tau_so2 k_so u_so =
      some (calc_tau_so th u tau_so1 tau_so2 k_so u_so) ∧
    calc_w_inf_chk u theta_o tau_w_inf w_inf_c =
      some (calc_w_inf u theta_o tau_w_inf w_inf_c) ∧
    (0 < get_parameters.tau_v1_m ∧ 0 < get_parameters.tau_v2_m ∧
     0 < get_parameters.tau_v_p ∧ 0 < get_parameters.tau_w1_m ∧
     0 < get_parameters.tau_w2_m ∧ 0 < get_parameters.tau_w_p ∧
     0 < get_parameters.tau_fi ∧ 0 < get_parameters.tau_o1 ∧
     0 < get_parameters.tau_o2 ∧ 0 < get_parameters.tau_so1 ∧
     0 < get_parameters.tau_so2 ∧ 0 < get_parameters.tau_s1 ∧
     0 < get_parameters.tau_s2 ∧ 0 < get_parameters.tau_si ∧
     0 < get_parameters.tau_w_inf) := by
  refine ⟨?_, ?_, ?_, ?_, ?_, ?_, ?_, ?_, ?_, ?_⟩
  · unfold calc_v_chk calc_v
    split_ifs <;> simp [safeDiv, h1, h2]
  · unfold calc_w_chk calc_w
    split_ifs <;> simp [safeDiv, h3, h4]
  · simp [calc_s_chk, calc_s, safeDiv, h5]
  · simp [calc_Jfi_chk, calc_Jfi, safeDiv, h6]
  · simp [calc_Jso_chk, calc_Jso, safeDiv, h7, h8]
  · simp [calc_Jsi_chk, calc_Jsi, safeDiv, h9]
  · simp [calc_tau_w_m_chk, calc_tau_w_m, safeDiv, mul_div_assoc]
  · simp [calc_tau_so_chk, calc_tau_so, safeDiv, mul_div_assoc]
  · unfold calc_w_inf_chk calc_w_inf
    split_ifs <;> simp [safeDiv, h10]
  · norm_num [get_parameters]

/-- Witness for `kinetics_total` with `th = tanh0` and every scalar argument
equal to `1`. -/
theorem kinetics_total_witness :
    calc_v_chk 1 1 1 1 1 1 = some (calc_v 1 1 1 1 1 1) :=
  (kinetics_total tanh0 1 1 1 1 1 1 1 1 1 1 1 1 1 1 1 1 1 1 1 1 1 1 1 1 1 1 1 1 1 1 1 1
    (by norm_num) (by norm_num) (by norm_num) (by norm_num) (by norm_num)
    (by norm_num) (by norm_num) (by norm_num) (by norm_num) (by norm_num)).1

/-- `runSteps` never changes `dt`, the stimulation list or the parameters. -/
theorem runSteps_config (th : ℚ → ℚ) (is : List ℕ) (m : BuenoOrovio0D) :
    (runSteps th m is).dt = m.dt ∧
    (runSteps th m is).stimulations = m.stimulations ∧
    (runSteps th m is).parameters = m.parameters := by
  induction is generalizing m with
  | nil => exact ⟨rfl, rfl, rfl⟩
  | cons i is ih => exact ih (snapAppend (step th m i))

/-- The state after `runSteps` is the fold of the pure state update. -/
theorem runSteps_vars (th : ℚ → ℚ) (is : List ℕ) (m : BuenoOrovio0D) :
    (runSteps th m is).vars =
      varsAfter th m.dt m.stimulations m.parameters m.vars is := by
  induction is generalizing m with
  | nil => rfl
  | cons i is ih => exact ih (snapAppend (step th m i))

/-- Each history list of `runSteps` is the previous history followed by the
post-step snapshots of the corresponding state component. -/
theorem runSteps_history (th : ℚ → ℚ) (is : List ℕ) (m : BuenoOrovio0D) :
    (runSteps th m is).history.u = m.history.u ++
      (varsTrace th m.dt m.stimulations m.parameters m.vars is).map Vars.u ∧
    (runSteps th m is).history.v = m.history.v ++
      (varsTrace th m.dt m.stimulations m.parameters m.vars is).map Vars.v ∧
    (runSteps th m is).history.w = m.history.w ++
      (varsTrace th m.dt m.stimulations m.parameters m.vars is).map Vars.w ∧
    (runSteps th m is).history.s = m.history.s ++
      (varsTrace th m.dt m.stimulations m.parameters m.vars is).map Vars.s := by
  induction is generalizing m with
  | nil => simp [runSteps, varsTrace]
  | cons i is ih =>
    have h := ih (snapAppend (step th m i))
    simpa [runSteps, varsTrace, snapAppend, step, List.append_assoc] using h

/-- The trace has one entry per executed step. -/
theorem varsTrace_length (th : ℚ → ℚ) (dt : ℚ) (stims : List Stimulation)
    (p : Params) (is : List ℕ) (vs : Vars) :
    (varsTrace th dt stims p vs is).length = is.length := by
  induction is generalizing vs with
  | nil => rfl
  | cons i is ih => simp [varsTrace, ih]

/-- Entry `k` of the trace is the state after the first `k + 1` steps. -/
theorem varsTrace_getElem (th : ℚ → ℚ) (dt : ℚ) (stims : List Stimulation)
    (p : Params) (is : List ℕ) (vs : Vars) (k : ℕ) (hk : k < is.length) :
    (varsTrace th dt stims p vs is)[k]? =
      some (varsAfter th dt stims p vs (is.take (k + 1))) := by
  induction is generalizing vs k with
  | nil => simp at hk
  | cons i is ih =>
    cases k with
    | zero => simp [varsTrace, varsAfter]
    | succ k =>
      have hk' : k < is.length := by simpa using hk
      simpa [varsTrace, varsAfter] using ih (stepVars th dt stims p vs i) k hk'

/-- `runSteps` over a concatenation splits into two sequential passes. -/
theorem runSteps_append (th : ℚ → ℚ) (a b : List ℕ) (m : BuenoOrovio0D) :
    runSteps th m (a ++ b) = runSteps th (runSteps th m a) b := by
  induction a generalizing m with
  | nil => rfl
  | cons i a ih => exact ih (snapAppend (step th m i))

/-- C3: for every `t_max` and `dt > 0`, `run(t_max)` performs
`n_steps = round(t_max / dt)` steps (Python's bankers' rounding; the loop is
empty when the rounded value is negative, whence the `toNat`), the four
history lists gain exactly one post-step snapshot per step so their length
is `n_steps`, entry `k` of the `u` history is the `u` value after executing
steps `0, ..., k` in increasing order, and in particular `run(1.0)` with
`dt = 0.3` performs `round(10/3) = 3` steps and yields a history of length
`3`, not `4`. -/
theorem run_step_count (th : ℚ → ℚ) (dtq t_max : ℚ) (stims : List Stimulation)
    (hdt : 0 < dtq) :
    ((run th (init dtq stims) t_max).history.u.length =
        (pyRound (t_max / dtq)).toNat ∧
     (run th (init dtq stims) t_max).history.v.length =
        (pyRound (t_max / dtq)).toNat ∧
     (run th (init dtq stims) t_max).history.w.length =
        (pyRound (t_max / dtq)).toNat ∧
     (run th (init dtq stims) t_max).history.s.length =
        (pyRound (t_max / dtq)).toNat) ∧
    (0 ≤ pyRound (t_max / dtq) →
      ((run th (init dtq stims) t_max).history.u.length : ℤ) =
        pyRound (t_max / dtq)) ∧
    (∀ k, k < (pyRound (t_max / dtq)).toNat →
      (run th (init dtq stims) t_max).history.u[k]? =
        some ((varsAfter th dtq stims get_parameters get_variables
          (List.range (k + 1))).u)) ∧
    (run th (init (3/10) stims) 1).history.u.length = 3 := by
  have key : ∀ (d t' : ℚ),
      (run th (init d stims) t').history.u =
        (varsTrace th d stims get_parameters get_variables
          (List.range (pyRound (t' / d)).toNat)).map Vars.u ∧
      (run th (init d stims) t').history.v =
        (varsTrace th d stims get_parameters get_variables
          (List.range (pyRound (t' / d)).toNat)).map Vars.v ∧
      (run th (init d stims) t').history.w =
        (varsTrace th d stims get_parameters get_variables
          (List.range (pyRound (t' / d)).toNat)).map Vars.w ∧
      (run th (init d stims) t').history.s =
        (varsTrace th d stims get_parameters get_variables
          (List.range (pyRound (t' / d)).toNat)).map Vars.s := by
    intro d t'
    have hh := runSteps_history th (List.range (pyRound (t' / d)).toNat)
      (init d stims)
    simpa [run, init] using hh
  refine ⟨⟨?_, ?_, ?_, ?_⟩, ?_, ?_, ?_⟩
  · rw [(key dtq t_max).1]
    simp [varsTrace_length]
  · rw [(key dtq t_max).2.1]
    simp [varsTrace_length]
  · rw [(key dtq t_max).2.2.1]
    simp [varsTrace_length]
  · rw [(key dtq t_max).2.2.2]
    simp [varsTrace_length]
  · intro h0
    rw [(key dtq t_max).1]
    simp [varsTrace_length]
    exact h0
  · intro k hk
    have hk' : k < (List.range (pyRound (t_max / dtq)).toNat).length := by
      simpa using hk
    rw [(key dtq t_max).1, List.getElem?_map,
      varsTrace_getElem th dtq stims get_parameters _ get_variables k hk',
      List.take_range, min_eq_left (by omega)]
    rfl
  · have h3 : pyRound ((1 : ℚ) / (3/10)) = 3 :=
      pyRound_low _ 3 (by norm_num) (by norm_num)
    rw [(key (3/10) 1).1, h3]
    simp [varsTrace_length]

/-- Witness for `run_step_count` at `dt = 3/10`, `t_max = 1`. -/
theorem run_step_count_witness :
    (0 : ℚ) < 3/10 ∧ (run tanh0 (init (3/10) []) 1).history.u.length = 3 :=
  ⟨by norm_num, (run_step_count tanh0 (3/10) 1 [] (by norm_num)).2.2.2⟩

/-- A sequence of `run` calls executes the concatenation of the per-call
index ranges, each call restarting at index `0`. -/
theorem runMany_eq_runSteps (th : ℚ → ℚ) (ts : List ℚ) (m : BuenoOrovio0D) :
    runMany th m ts = runSteps th m (idxSeq m.dt ts) := by
  induction ts generalizing m with
  | nil => rfl
  | cons t ts ih =>
    have hdt : (run th m t).dt = m.dt :=
      (runSteps_config th (List.range (pyRound (t / m.dt)).toNat) m).1
    have h1 : runMany th m (t :: ts) = runMany th (run th m t) ts := rfl
    have h2 : idxSeq m.dt (t :: ts) =
        List.range (pyRound (t / m.dt)).toNat ++ idxSeq m.dt ts := by
      simp [idxSeq]
    rw [h1, ih (run th m t), hdt, h2, runSteps_append]
    rfl

/-- C9: for a freshly constructed model and any sequence of `run` calls, the
four history lists always have the same length, equal to the total number of
completed steps; entry `k` of each list is the value of the corresponding
state variable immediately after the `(k+1)`-th completed step; and entries
already recorded are never modified by later `run` calls (the previous
history is a prefix of the extended one). -/
theorem history_append_only (th : ℚ → ℚ) (dtq : ℚ) (stims : List Stimulation)
    (ts : List ℚ) :
    ((runMany th (init dtq stims) ts).history.u.length = (idxSeq dtq ts).length ∧
     (runMany th (init dtq stims) ts).history.v.length = (idxSeq dtq ts).length ∧
     (runMany th (init dtq stims) ts).history.w.length = (idxSeq dtq ts).length ∧
     (runMany th (init dtq stims) ts).history.s.length = (idxSeq dtq ts).length) ∧
    (∀ k, k < (idxSeq dtq ts).length →
      (runMany th (init dtq stims) ts).history.u[k]? =
        some ((varsAfter th dtq stims get_parameters get_variables
          ((idxSeq dtq ts).take (k + 1))).u) ∧
      (runMany th (init dtq stims) ts).history.v[k]? =
        some ((varsAfter th dtq stims get_parameters get_variables
          ((idxSeq dtq ts).take (k + 1))).v) ∧
      (runMany th (init dtq stims) ts).history.w[k]? =
        some ((varsAfter th dtq stims get_parameters get_variables
          ((idxSeq dtq ts).take (k + 1))).w) ∧
      (runMany th (init dtq stims) ts).history.s[k]? =
        some ((varsAfter th dtq stims get_parameters get_variables
          ((idxSeq dtq ts).take (k + 1))).s)) ∧
    (∀ ts2 : List ℚ,
      (runMany th (init dtq stims) (ts ++ ts2)).history.u.take
          (idxSeq dtq ts).length = (runMany th (init dtq stims) ts).history.u ∧
      (runMany th (init dtq stims) (ts ++ ts2)).history.v.take
          (idxSeq dtq ts).length = (runMany th (init dtq stims) ts).history.v ∧
      (runMany th (init dtq stims) (ts ++ ts2)).history.w.take
          (idxSeq dtq ts).length = (runMany th (init dtq stims) ts).history.w ∧
      (runMany th (init dtq stims) (ts ++ ts2)).history.s.take
          (idxSeq dtq ts).length = (runMany th (init dtq stims) ts).history.s) := by
  have hm : ∀ ts' : List ℚ, runMany th (init dtq stims) ts' =
      runSteps th (init dtq stims) (idxSeq dtq ts') := by
    intro ts'
    simpa [init] using runMany_eq_runSteps th ts' (init dtq stims)
  have hist : ∀ ts' : List ℚ,
      (runSteps th (init dtq stims) (idxSeq dtq ts')).history.u =
        (varsTrace th dtq stims get_parameters get_variables
          (idxSeq dtq ts')).map Vars.u ∧
      (runSteps th (init dtq stims) (idxSeq dtq ts')).history.v =
        (varsTrace th dtq stims get_parameters get_variables
          (idxSeq dtq ts')).map Vars.v ∧
      (runSteps th (init dtq stims) (idxSeq dtq ts')).history.w =
        (varsTrace th dtq stims get_parameters get_variables
          (idxSeq dtq ts')).map Vars.w ∧
      (runSteps th (init dtq stims) (idxSeq dtq ts')).history.s =
        (varsTrace th dtq stims get_parameters get_variables
          (idxSeq dtq ts')).map Vars.s := by
    intro ts'
    simpa [init] using runSteps_history th (idxSeq dtq ts') (init dtq stims)
  have hlen : ∀ ts' : List ℚ,
      (runMany th (init dtq stims) ts').history.u.length =
        (idxSeq dtq ts').length := by
    intro ts'
    rw [hm ts', (hist ts').1]
    simp [varsTrace_length]
  refine ⟨⟨?_, ?_, ?_, ?_⟩, ?_, ?_⟩
  · exact hlen ts
  · rw [hm ts, (hist ts).2.1]
    simp [varsTrace_length]
  · rw [hm ts, (hist ts).2.2.1]
    simp [varsTrace_length]
  · rw [hm ts, (hist ts).2.2.2]
    simp [varsTrace_length]
  · intro k hk
    refine ⟨?_, ?_, ?_, ?_⟩
    · rw [hm ts, (hist ts).1, List.getElem?_map,
        varsTrace_getElem th dtq stims get_parameters _ get_variables k hk]
      rfl
    · rw [hm ts, (hist ts).2.1, List.getElem?_map,
        varsTrace_getElem th dtq stims get_parameters _ get_variables k hk]
      rfl
    · rw [hm ts, (hist ts).2.2.1, List.getElem?_map,
        varsTrace_getElem th dtq stims get_parameters _ get_variables k hk]
      rfl
    · rw [hm ts, (hist ts).2.2.2, List.getElem?_map,
        varsTrace_getElem th dtq stims get_parameters _ get_variables k hk]
      rfl
  · intro ts2
    have hsplit : idxSeq dtq (ts ++ ts2) = idxSeq dtq ts ++ idxSeq dtq ts2 := by
      simp [idxSeq]
    have h2 := runSteps_history th (idxSeq dtq ts2)
      (runSteps th (init dtq stims) (idxSeq dtq ts))
    have hlu : (runSteps th (init dtq stims) (idxSeq dtq ts)).history.u.length =
        (idxSeq dtq ts).length := by rw [← hm ts]; exact hlen ts
    have hlv : (runSteps th (init dtq stims) (idxSeq dtq ts)).history.v.length =
        (idxSeq dtq ts).length := by
      rw [(hist ts).2.1]; simp [varsTrace_length]
    have hlw : (runSteps th (init dtq stims) (idxSeq dtq ts)).history.w.length =
        (idxSeq dtq ts).length := by
      rw [(hist ts).2.2.1]; simp [varsTrace_length]
    have hls : (runSteps th (init dtq stims) (idxSeq dtq ts)).history.s.length =
        (idxSeq dtq ts).length := by
      rw [(hist ts).2.2.2]; simp [varsTrace_length]
    refine ⟨?_, ?_, ?_, ?_⟩
    · rw [hm (ts ++ ts2), hsplit, runSteps_append, h2.1, hm ts, ← hlu,
        List.take_left]
    · rw [hm (ts ++ ts2), hsplit, runSteps_append, h2.2.1, hm ts, ← hlv,
        List.take_left]
    · rw [hm (ts ++ ts2), hsplit, runSteps_append, h2.2.2.1, hm ts, ← hlw,
        List.take_left]
    · rw [hm (ts ++ ts2), hsplit, runSteps_append, h2.2.2.2, hm ts, ← hls,
        List.take_left]

/-- Witness for `history_append_only` at `dt = 1`, a single `run(2)` call
(two steps) and history index `k = 0`. -/
theorem history_append_only_witness :
    0 < (idxSeq 1 [2]).length ∧
    (runMany tanh0 (init 1 []) [2]).history.u[0]? =
      some ((varsAfter tanh0 1 [] get_parameters get_variables
        ((idxSeq 1 [2]).take 1)).u) :=
  ⟨by simp [idxSeq, pyRound_low (2:ℚ) 2 (by norm_num) (by norm_num)],
   ((history_append_only tanh0 1 [] [2]).2.1 0
      (by simp [idxSeq, pyRound_low (2:ℚ) 2 (by norm_num) (by norm_num)])).1⟩
